import Mathlib

/-!
Shallow embedding of the gravity-bridge orchestrator core
(`ethereum_event_watcher.rs`, `valset_update.rs`, `batch_relaying.rs`).

Fallible chain-adapter calls are modelled as `Option`-valued fields of an
environment record (`none` = the call returned an error); each Rust function
becomes a pure Lean function from its environment to an outcome record that
carries both its `Result` value and the externally visible effects (claims
submitted, Ethereum calls made).
-/

namespace GravityBridge

/-- A decoded EVM bridge event that carries an `event_nonce`; the remaining
fields of the concrete Rust event types (sender, amount, denom, ...) are
summarised as an opaque `payload`, since the watcher only reads them for
logging. -/
structure Ev where
  event_nonce : Nat
  payload : Nat
deriving DecidableEq, Repr

/-- The number of blocks behind the latest Ethereum block that event checking
stays, per `get_block_delay` in `ethereum_event_watcher.rs`: the Rust `match`
on the net version returns 6 for `1 | 3 | 7`, 0 for `4 | 5 | 2018 | 15 | 6`,
and 6 in the default arm. -/
def get_block_delay (net_version : Nat) : Nat :=
  if net_version = 1 ∨ net_version = 3 ∨ net_version = 7 then 6
  else if net_version = 4 ∨ net_version = 5 ∨ net_version = 2018 ∨
      net_version = 15 ∨ net_version = 6 then 0
  else 6

/-- Modelled from the spec: `filter_by_event_nonce` is defined in
`peggy_utils::types`, which is not among the provided sources; only its call
sites in `check_for_events` are. Spec section 4.4 step 6 ("Filter each decoded
list to entries with `event_nonce > last_event_nonce`"), testable property 1
and scenario S2 (deposits with nonces 10 and 11 against `last_event_nonce =
10` submit only the nonce-11 event) all require the strict comparison, so the
filter keeps exactly the events whose nonce is strictly greater than the
threshold, preserving their order. (Spec section 4.2 instead says "nonce ≥
threshold"; the two sentences conflict, and the strict reading is the one the
rest of the spec depends on.) -/
def filter_by_event_nonce (threshold : Nat) : List Ev → List Ev
  | [] => []
  | e :: rest =>
    if threshold < e.event_nonce then e :: filter_by_event_nonce threshold rest
    else filter_by_event_nonce threshold rest

/-- `filter_by_event_nonce` is `List.filter` with the strict nonce test. -/
lemma filter_by_event_nonce_eq_filter (t : Nat) (l : List Ev) :
    filter_by_event_nonce t l = l.filter (fun e => decide (t < e.event_nonce)) := by
  induction l with
  | nil => rfl
  | cons e rest ih =>
    by_cases h : t < e.event_nonce <;>
      simp [filter_by_event_nonce, h, ih]

lemma mem_filter_by_event_nonce (t : Nat) (l : List Ev) (x : Ev) :
    x ∈ filter_by_event_nonce t l ↔ x ∈ l ∧ t < x.event_nonce := by
  rw [filter_by_event_nonce_eq_filter]
  simp [List.mem_filter]

/-- Strict ordering of events by their nonce. -/
def ev_lt (a b : Ev) : Prop := a.event_nonce < b.event_nonce

instance : DecidableRel ev_lt := fun a b => Nat.decLt a.event_nonce b.event_nonce

lemma pairwise_filter_by_event_nonce (t : Nat) (l : List Ev)
    (h : l.Pairwise ev_lt) : (filter_by_event_nonce t l).Pairwise ev_lt := by
  rw [filter_by_event_nonce_eq_filter]
  exact h.filter _

/-- C3: `get_block_delay` returns 6 on net ids 1, 3, 7; 0 on 4, 5, 6, 15,
2018; and 6 on every other id. -/
theorem claim_C3_block_delay_table (n : Nat) :
    get_block_delay n =
      if n = 1 ∨ n = 3 ∨ n = 7 then 6
      else if n = 4 ∨ n = 5 ∨ n = 6 ∨ n = 15 ∨ n = 2018 then 0
      else 6 := by
  unfold get_block_delay
  split_ifs <;> tauto

/-- C7 counterexample: the claim says `filter_by_event_nonce t events` keeps
the events with nonce greater than or equal to `t`; at `t = 10` on a single
event with nonce exactly 10 the filter drops the event, so the claimed result
`[⟨10, 0⟩]` is not what the function returns. -/
theorem claim_C7_geq_filter_counterexample :
    filter_by_event_nonce 10 [Ev.mk 10 0] = [] ∧
      (10 : Nat) ≥ 10 ∧ [Ev.mk 10 0] ≠ ([] : List Ev) := by
  refine ⟨rfl, le_refl 10, by decide⟩

/-- C7 amended: `filter_by_event_nonce t events` returns exactly the events
whose `event_nonce` is strictly greater than `t` (membership), and is
precisely the order-preserving sublist `events.filter (t < ·.event_nonce)`. -/
theorem claim_C7_filter_characterisation (t : Nat) (l : List Ev) :
    (∀ x, x ∈ filter_by_event_nonce t l ↔ x ∈ l ∧ t < x.event_nonce) ∧
      filter_by_event_nonce t l = l.filter (fun e => decide (t < e.event_nonce)) :=
  ⟨fun x => mem_filter_by_event_nonce t l x, filter_by_event_nonce_eq_filter t l⟩

/-! ### Event watcher (`check_for_events`) -/

/-- The four filtered event lists that `send_ethereum_claims` receives in
`check_for_events` (decoded `ValsetUpdatedEvent`s carry no event nonce in this
version and are never submitted as claims). -/
structure SubmittedClaims where
  deposits : List Ev
  withdraws : List Ev
  erc20_deploys : List Ev
  logic_calls : List Ev
deriving DecidableEq, Repr

/-- The errors `check_for_events` can return: the five-query failure branch
(`PeggyError::EthereumRestError` with the "Failed to get logs!" message), a
failed gRPC read of the last event nonce (the `?` on `get_last_event_nonce`),
a failed claims broadcast (the `?` on `send_ethereum_claims`), and
`PeggyError::InvalidBridgeStateError`, whose message carries the stuck nonce
and the submitted transaction hash. -/
inductive WatcherError where
  | failedToGetLogs
  | grpcError
  | sendError
  | invalidBridgeState (stuck_nonce : Nat) (txhash : Nat)
deriving DecidableEq, Repr

/-- One cycle's inputs to `check_for_events`: the retried latest-block and
net-version reads, the five log-query results (`none` = the query errored;
decoding by `from_logs` is outside the provided sources and is modelled as
already done), the fresh `last_event_nonce` read, the claims-broadcast result
(the transaction hash on success), and the post-broadcast re-read of the
event nonce. -/
structure CycleEnv where
  starting_block : Nat
  latest_block : Nat
  net_version : Nat
  deposits : Option (List Ev)
  batches : Option (List Ev)
  valsets : Option (List Nat)
  erc20_deployed : Option (List Ev)
  logic_call_executed : Option (List Ev)
  last_event_nonce : Option Nat
  send_claims_result : Option Nat
  new_event_nonce : Option Nat
deriving Repr

instance : DecidableEq (Except WatcherError Nat) := fun a b =>
  match a, b with
  | .error x, .error y => decidable_of_iff (x = y) (by simp)
  | .ok x, .ok y => decidable_of_iff (x = y) (by simp)
  | .error _, .ok _ => isFalse (by simp)
  | .ok _, .error _ => isFalse (by simp)

/-- The `Result` value of `check_for_events` together with the claims it
handed to `send_ethereum_claims` (`none` when no claims transaction was
attempted). -/
structure CycleOutcome where
  result : Except WatcherError Nat
  submitted : Option SubmittedClaims
deriving DecidableEq, Repr

/-- The four `filter_by_event_nonce` calls of `check_for_events` packaged as a
function of the pair (last event nonce, decoded events). -/
def submitted_claims (last_event_nonce : Nat)
    (deposits withdraws erc20_deploys logic_calls : List Ev) : SubmittedClaims :=
  ⟨filter_by_event_nonce last_event_nonce deposits,
   filter_by_event_nonce last_event_nonce withdraws,
   filter_by_event_nonce last_event_nonce erc20_deploys,
   filter_by_event_nonce last_event_nonce logic_calls⟩

/-- The submission guard of `check_for_events`: `!deposits.is_empty() ||
!withdraws.is_empty() || !erc20_deploys.is_empty() || !logic_calls.is_empty()`. -/
def has_claims (c : SubmittedClaims) : Bool :=
  !c.deposits.isEmpty || !c.withdraws.isEmpty ||
    !c.erc20_deploys.isEmpty || !c.logic_calls.isEmpty

/-- `check_for_events` from `ethereum_event_watcher.rs`: subtract the block
delay from the latest block, require all five log queries to have succeeded,
read the last event nonce, filter the four nonce-carrying event lists, and
when any filtered list is non-empty submit the combined claims and check that
the re-read nonce advanced; on success return the delayed latest block as the
new checkpoint. -/
def check_for_events (env : CycleEnv) : CycleOutcome :=
  let latest_block := env.latest_block - get_block_delay env.net_version
  match env.valsets, env.batches, env.deposits, env.erc20_deployed,
      env.logic_call_executed with
  | some _valsets, some batches, some deposits, some deploys, some logic_calls =>
    match env.last_event_nonce with
    | none => ⟨.error .grpcError, none⟩
    | some last_event_nonce =>
      let claims := submitted_claims last_event_nonce deposits batches deploys logic_calls
      if has_claims claims then
        match env.send_claims_result with
        | none => ⟨.error .sendError, some claims⟩
        | some txhash =>
          match env.new_event_nonce with
          | none => ⟨.error .grpcError, some claims⟩
          | some new_event_nonce =>
            if new_event_nonce = last_event_nonce then
              ⟨.error (.invalidBridgeState last_event_nonce txhash), some claims⟩
            else
              ⟨.ok latest_block, some claims⟩
      else
        ⟨.ok latest_block, none⟩
  | _, _, _, _, _ => ⟨.error .failedToGetLogs, none⟩

/-- C1: when all five log queries succeed and the last event nonce reads `n`,
the claims handed to the native chain are a function of `n` and the decoded
events alone; they are exactly the decoded events with `event_nonce > n`; a
claims transaction is attempted only when at least one filtered list is
non-empty; and when each decoded list is ascending in `event_nonce`, so is
each filtered list. -/
theorem claim_C1_event_filtering (env : CycleEnv) (vs : List Nat)
    (d w e2 lc : List Ev) (n : Nat)
    (hv : env.valsets = some vs) (hw : env.batches = some w)
    (hd : env.deposits = some d) (he : env.erc20_deployed = some e2)
    (hl : env.logic_call_executed = some lc)
    (hn : env.last_event_nonce = some n)
    (sd : d.Pairwise ev_lt) (sw : w.Pairwise ev_lt)
    (se : e2.Pairwise ev_lt) (sl : lc.Pairwise ev_lt) :
    ((check_for_events env).submitted =
        if has_claims (submitted_claims n d w e2 lc) then
          some (submitted_claims n d w e2 lc)
        else none) ∧
      (∀ x, x ∈ (submitted_claims n d w e2 lc).deposits ↔ x ∈ d ∧ n < x.event_nonce) ∧
      (∀ x, x ∈ (submitted_claims n d w e2 lc).withdraws ↔ x ∈ w ∧ n < x.event_nonce) ∧
      (∀ x, x ∈ (submitted_claims n d w e2 lc).erc20_deploys ↔ x ∈ e2 ∧ n < x.event_nonce) ∧
      (∀ x, x ∈ (submitted_claims n d w e2 lc).logic_calls ↔ x ∈ lc ∧ n < x.event_nonce) ∧
      (submitted_claims n d w e2 lc).deposits.Pairwise ev_lt ∧
      (submitted_claims n d w e2 lc).withdraws.Pairwise ev_lt ∧
      (submitted_claims n d w e2 lc).erc20_deploys.Pairwise ev_lt ∧
      (submitted_claims n d w e2 lc).logic_calls.Pairwise ev_lt := by
  refine ⟨?_, ?_, ?_, ?_, ?_, ?_, ?_, ?_, ?_⟩
  · by_cases hc : has_claims (submitted_claims n d w e2 lc) = true
    · rcases hs : env.send_claims_result with _ | tx
      · simp [check_for_events, hv, hw, hd, he, hl, hn, hs, hc]
      · rcases hne : env.new_event_nonce with _ | n2
        · simp [check_for_events, hv, hw, hd, he, hl, hn, hs, hne, hc]
        · by_cases h2 : n2 = n <;>
            simp [check_for_events, hv, hw, hd, he, hl, hn, hs, hne, hc, h2]
    · simp [check_for_events, hv, hw, hd, he, hl, hn, hc]
  · exact fun x => mem_filter_by_event_nonce n d x
  · exact fun x => mem_filter_by_event_nonce n w x
  · exact fun x => mem_filter_by_event_nonce n e2 x
  · exact fun x => mem_filter_by_event_nonce n lc x
  · exact pairwise_filter_by_event_nonce n d sd
  · exact pairwise_filter_by_event_nonce n w sw
  · exact pairwise_filter_by_event_nonce n e2 se
  · exact pairwise_filter_by_event_nonce n lc sl

/-- Concrete watcher environment used by witnesses: deposits with nonces 10
and 11, last event nonce 10, successful submission, re-read nonce 11. -/
def wit_env : CycleEnv :=
  ⟨100, 210, 1, some [⟨10, 0⟩, ⟨11, 1⟩], some [], some [], some [], some [],
   some 10, some 77, some 11⟩

/-- Witness for C1 at `wit_env`. -/
theorem claim_C1_event_filtering_witness :
    (check_for_events wit_env).submitted =
      if has_claims (submitted_claims 10 [⟨10, 0⟩, ⟨11, 1⟩] [] [] []) then
        some (submitted_claims 10 [⟨10, 0⟩, ⟨11, 1⟩] [] [] [])
      else none :=
  (claim_C1_event_filtering wit_env [] [⟨10, 0⟩, ⟨11, 1⟩] [] [] [] 10
    rfl rfl rfl rfl rfl rfl (by decide) (by decide) (by decide) (by decide)).1

/-- C4: after a claims transaction is submitted (the guard held and the
broadcast returned transaction hash `tx`), a re-read nonce equal to the
pre-submission nonce makes `check_for_events` return the
`InvalidBridgeState` error carrying `tx`, and a differing re-read nonce makes
it return the new checkpoint with no error. -/
theorem claim_C4_invalid_bridge_state (env : CycleEnv) (vs : List Nat)
    (d w e2 lc : List Ev) (n tx n2 : Nat)
    (hv : env.valsets = some vs) (hw : env.batches = some w)
    (hd : env.deposits = some d) (he : env.erc20_deployed = some e2)
    (hl : env.logic_call_executed = some lc)
    (hn : env.last_event_nonce = some n)
    (hc : has_claims (submitted_claims n d w e2 lc) = true)
    (hs : env.send_claims_result = some tx)
    (h2 : env.new_event_nonce = some n2) :
    (n2 = n →
        (check_for_events env).result = .error (.invalidBridgeState n tx)) ∧
      (n2 ≠ n →
        (check_for_events env).result =
          .ok (env.latest_block - get_block_delay env.net_version)) := by
  constructor <;> intro hcmp <;>
    simp [check_for_events, hv, hw, hd, he, hl, hn, hc, hs, h2, hcmp]

/-- Witness for C4 at `wit_env` (re-read nonce 11 differs from 10, so the
cycle succeeds), plus the stuck variant of `wit_env` where the re-read still
returns 10 and the error carries the transaction hash 77. -/
theorem claim_C4_invalid_bridge_state_witness :
    (check_for_events wit_env).result = .ok 204 ∧
      (check_for_events { wit_env with new_event_nonce := some 10 }).result =
        .error (.invalidBridgeState 10 77) := by
  constructor
  · exact (claim_C4_invalid_bridge_state wit_env [] [⟨10, 0⟩, ⟨11, 1⟩] [] [] []
      10 77 11 rfl rfl rfl rfl rfl rfl (by decide) rfl rfl).2 (by decide)
  · exact (claim_C4_invalid_bridge_state
      { wit_env with new_event_nonce := some 10 } [] [⟨10, 0⟩, ⟨11, 1⟩] [] [] []
      10 77 10 rfl rfl rfl rfl rfl rfl (by decide) rfl rfl).1 rfl

/-- C8: when any of the five log queries fails, `check_for_events` returns
the failed-to-get-logs error, submits no claims transaction, and returns no
new checkpoint block. -/
theorem claim_C8_query_failure_aborts (env : CycleEnv)
    (h : env.valsets = none ∨ env.batches = none ∨ env.deposits = none ∨
      env.erc20_deployed = none ∨ env.logic_call_executed = none) :
    check_for_events env = ⟨.error .failedToGetLogs, none⟩ := by
  obtain ⟨sb, lb, nv, dep, bat, vals, erc, logc, len, scr, nen⟩ := env
  rcases vals with _ | v <;> rcases bat with _ | b <;> rcases dep with _ | d <;>
    rcases erc with _ | e <;> rcases logc with _ | l <;>
    simp_all [check_for_events]

/-- Witness for C8: `wit_env` with the deposits query failing. -/
theorem claim_C8_query_failure_aborts_witness :
    check_for_events { wit_env with deposits := none } =
      ⟨.error .failedToGetLogs, none⟩ :=
  claim_C8_query_failure_aborts { wit_env with deposits := none }
    (Or.inr (Or.inr (Or.inl rfl)))

/-! ### Valset relayer (`send_eth_valset_update`) -/

/-- The Ethereum interactions `send_eth_valset_update` can perform, in
program order: the pre-broadcast `get_valset_nonce` read, the
`send_transaction` broadcast, `wait_for_transaction`, and the post-receipt
`get_valset_nonce` read. -/
inductive VCall where
  | getValsetNonce
  | sendTx
  | waitForTx
  | getValsetNonceAfter
deriving DecidableEq, Repr

/-- How `send_eth_valset_update` terminates: the `assert!` panic, a
propagated `PeggyError`, or `Ok(())`. -/
inductive VResult where
  | panicked
  | errored
  | ok
deriving DecidableEq, Repr

/-- The fallible inputs of `send_eth_valset_update`: the pre-broadcast valset
nonce read, whether `encode_valset_payload` (whose `order_sigs` call can fail)
succeeds, the broadcast result (transaction id on success), whether
`wait_for_transaction` succeeds, and the post-receipt valset nonce read. -/
structure ValsetEnv where
  before_nonce : Option Nat
  payload_ok : Bool
  send_tx_result : Option Nat
  wait_ok : Bool
  last_nonce : Option Nat
deriving Repr

/-- The result of `send_eth_valset_update` together with the Ethereum
interactions it performed. -/
structure ValsetOutcome where
  result : VResult
  calls : List VCall
deriving DecidableEq, Repr

/-- `send_eth_valset_update` from `valset_update.rs`: assert the new nonce
exceeds the old one, read the contract's valset nonce and return `Ok(())`
early when it differs from the old nonce, encode the payload, broadcast, wait
for the receipt, re-read the nonce, and return `Ok(())` whether or not the
re-read nonce equals the new nonce (a mismatch is only logged). -/
def send_eth_valset_update (new_nonce old_nonce : Nat) (env : ValsetEnv) :
    ValsetOutcome :=
  if ¬ new_nonce > old_nonce then ⟨.panicked, []⟩
  else
    match env.before_nonce with
    | none => ⟨.errored, [.getValsetNonce]⟩
    | some before_nonce =>
      if before_nonce ≠ old_nonce then ⟨.ok, [.getValsetNonce]⟩
      else if ¬ env.payload_ok then ⟨.errored, [.getValsetNonce]⟩
      else
        match env.send_tx_result with
        | none => ⟨.errored, [.getValsetNonce, .sendTx]⟩
        | some _tx =>
          if ¬ env.wait_ok then ⟨.errored, [.getValsetNonce, .sendTx, .waitForTx]⟩
          else
            match env.last_nonce with
            | none =>
              ⟨.errored, [.getValsetNonce, .sendTx, .waitForTx, .getValsetNonceAfter]⟩
            | some _last_nonce =>
              ⟨.ok, [.getValsetNonce, .sendTx, .waitForTx, .getValsetNonceAfter]⟩

/-- C5: when the pre-broadcast valset-nonce read differs from the old
valset's nonce, `send_eth_valset_update` returns `Ok(())` having performed
only that read — in particular no Ethereum transaction is sent. -/
theorem claim_C5_stale_relay_aborts (new_nonce old_nonce : Nat)
    (env : ValsetEnv) (bn : Nat) (hpre : new_nonce > old_nonce)
    (hb : env.before_nonce = some bn) (hne : bn ≠ old_nonce) :
    send_eth_valset_update new_nonce old_nonce env = ⟨.ok, [.getValsetNonce]⟩ ∧
      VCall.sendTx ∉ (send_eth_valset_update new_nonce old_nonce env).calls := by
  have h : send_eth_valset_update new_nonce old_nonce env = ⟨.ok, [.getValsetNonce]⟩ := by
    simp [send_eth_valset_update, hpre, hb, hne]
  exact ⟨h, by rw [h]; decide⟩

/-- Witness for C5: new nonce 8, old nonce 5, contract already at 8. -/
theorem claim_C5_stale_relay_aborts_witness :
    send_eth_valset_update 8 5 ⟨some 8, true, some 3, true, some 8⟩ =
      ⟨.ok, [.getValsetNonce]⟩ :=
  (claim_C5_stale_relay_aborts 8 5 ⟨some 8, true, some 3, true, some 8⟩ 8
    (by decide) rfl (by decide)).1

/-- C6: when the broadcast happens and its receipt is obtained, a
post-receipt valset-nonce read that differs from the new valset's nonce still
yields `Ok(())`: the mismatch is only logged. -/
theorem claim_C6_post_receipt_mismatch_ok (new_nonce old_nonce : Nat)
    (env : ValsetEnv) (tx ln : Nat) (hpre : new_nonce > old_nonce)
    (hb : env.before_nonce = some old_nonce) (hp : env.payload_ok = true)
    (hs : env.send_tx_result = some tx) (hw : env.wait_ok = true)
    (hl : env.last_nonce = some ln) (_hmm : ln ≠ new_nonce) :
    (send_eth_valset_update new_nonce old_nonce env).result = .ok := by
  simp [send_eth_valset_update, hpre, hb, hp, hs, hw, hl]

/-- Witness for C6: nonces 5 → 8, receipt obtained, re-read nonce 9 ≠ 8. -/
theorem claim_C6_post_receipt_mismatch_ok_witness :
    (send_eth_valset_update 8 5 ⟨some 5, true, some 3, true, some 9⟩).result = .ok :=
  claim_C6_post_receipt_mismatch_ok 8 5 ⟨some 5, true, some 3, true, some 9⟩ 3 9
    (by decide) rfl rfl rfl rfl rfl (by decide)

/-- C9: `new_valset.nonce > old_valset.nonce` is a precondition enforced by
`assert!`: when it fails the function panics having performed no chain
interaction, and under the precondition the assertion never fires. -/
theorem claim_C9_nonce_precondition (new_nonce old_nonce : Nat)
    (env : ValsetEnv) :
    (new_nonce ≤ old_nonce →
        send_eth_valset_update new_nonce old_nonce env = ⟨.panicked, []⟩) ∧
      (new_nonce > old_nonce →
        (send_eth_valset_update new_nonce old_nonce env).result ≠ .panicked) := by
  constructor
  · intro hle
    simp [send_eth_valset_update, Nat.not_lt.mpr hle]
  · intro hgt
    obtain ⟨bn, pok, st, wok, lnn⟩ := env
    rcases bn with _ | bn
    · simp [send_eth_valset_update, hgt]
    · by_cases hb : bn = old_nonce <;> rcases st with _ | tx <;>
        rcases lnn with _ | ln <;> rcases pok with _ | _ <;> rcases wok with _ | _ <;>
        simp_all [send_eth_valset_update]

/-- Witness for C9: with equal nonces 5 → 5 the function panics without chain
interaction, and with 5 → 8 it does not panic. -/
theorem claim_C9_nonce_precondition_witness :
    send_eth_valset_update 5 5 ⟨some 5, true, some 3, true, some 8⟩ =
        ⟨.panicked, []⟩ ∧
      (send_eth_valset_update 8 5 ⟨some 5, true, some 3, true, some 8⟩).result ≠
        .panicked :=
  ⟨(claim_C9_nonce_precondition 5 5 ⟨some 5, true, some 3, true, some 8⟩).1
      (by decide),
    (claim_C9_nonce_precondition 8 5 ⟨some 5, true, some 3, true, some 8⟩).2
      (by decide)⟩

/-! ### Batch relayer (`relay_batches`) -/

/-- A withdrawal batch as `relay_batches` uses it: its nonce and its ERC-20
token contract (addresses are modelled as naturals). -/
structure TransactionBatch where
  nonce : Nat
  token_contract : Nat
deriving DecidableEq, Repr

/-- The early-return points of `relay_batches`; each is reached by a logged
`return` (or by falling off the end of the function), never by an error
result. -/
inductive RelayAbort where
  | latestBatchesErr
  | noSignedBatch
  | ethNonceErr
  | notNewer
  | costErr
  | submitErr
deriving DecidableEq, Repr

/-- The fallible inputs of `relay_batches`: the latest-batches query, the
per-batch signature fetch, the per-batch `order_sigs` check, the per-token
`get_tx_batch_nonce` read, the gas-cost estimate, and the batch submission. -/
structure RelayEnv where
  latest_batches : Option (List TransactionBatch)
  sigs_ok : TransactionBatch → Bool
  order_sigs_ok : TransactionBatch → Bool
  eth_batch_nonce : Nat → Option Nat
  cost_ok : Bool
  submit_ok : Bool

/-- A batch passes the loop body of `relay_batches` when its signature fetch
succeeded and `current_valset.order_sigs(..)` on it is `Ok`. -/
def batch_passes (env : RelayEnv) (batch : TransactionBatch) : Bool :=
  env.sigs_ok batch && env.order_sigs_ok batch

/-- The selection loop of `relay_batches`: `oldest_signed_batch` starts as
`None` and is overwritten by every batch whose signatures pass; batches whose
signature fetch or `order_sigs` check fails leave it unchanged. -/
def find_signed_batch (env : RelayEnv) (batches : List TransactionBatch) :
    Option TransactionBatch :=
  batches.foldl
    (fun acc batch => if batch_passes env batch then some batch else acc) none

/-- What a `relay_batches` call did: the batch handed to
`send_eth_transaction_batch` (`none` when no submission was attempted) and
the early-return point it took, if any. -/
structure RelayOutcome where
  submitted : Option TransactionBatch
  aborted : Option RelayAbort
deriving DecidableEq, Repr

/-- `relay_batches` from `batch_relaying.rs`: query the latest batches,
run the selection loop, read the contract's batch nonce for the selected
batch's token, and when the selected nonce is strictly newer estimate the
cost and submit; every failure is an early normal return. -/
def relay_batches (env : RelayEnv) : RelayOutcome :=
  match env.latest_batches with
  | none => ⟨none, some .latestBatchesErr⟩
  | some latest_batches =>
    match find_signed_batch env latest_batches with
    | none => ⟨none, some .noSignedBatch⟩
    | some oldest_signed_batch =>
      match env.eth_batch_nonce oldest_signed_batch.token_contract with
      | none => ⟨none, some .ethNonceErr⟩
      | some latest_ethereum_batch =>
        if oldest_signed_batch.nonce > latest_ethereum_batch then
          if ¬ env.cost_ok then ⟨none, some .costErr⟩
          else if ¬ env.submit_ok then ⟨some oldest_signed_batch, some .submitErr⟩
          else ⟨some oldest_signed_batch, none⟩
        else ⟨none, some .notNewer⟩

/-- The overwrite-fold keeps the last passing element; expressed through
`find?` on the reversed list. -/
lemma foldl_select_eq (p : TransactionBatch → Bool) (bs : List TransactionBatch)
    (acc : Option TransactionBatch) :
    bs.foldl (fun a batch => if p batch then some batch else a) acc =
      (bs.reverse.find? p).or acc := by
  induction bs generalizing acc with
  | nil => rfl
  | cons b rest ih =>
    rw [List.foldl_cons, ih, List.reverse_cons, List.find?_append]
    rcases h : rest.reverse.find? p with _ | x
    · by_cases hp : p b <;> simp [List.find?, hp]
    · simp

lemma find_signed_batch_eq_find?_reverse (env : RelayEnv)
    (bs : List TransactionBatch) :
    find_signed_batch env bs = bs.reverse.find? (batch_passes env) := by
  rw [find_signed_batch, foldl_select_eq]
  rcases bs.reverse.find? (batch_passes env) with _ | x <;> rfl

/-- In a list whose nonces ascend, `find?` returns a passing element of
minimal nonce. -/
lemma find?_min_nonce_of_sorted (p : TransactionBatch → Bool)
    (l : List TransactionBatch)
    (hs : l.Pairwise (fun a b => a.nonce < b.nonce)) (x : TransactionBatch)
    (h : l.find? p = some x) :
    p x = true ∧ ∀ y ∈ l, p y = true → x.nonce ≤ y.nonce := by
  induction l with
  | nil => simp at h
  | cons a rest ih =>
    rcases List.pairwise_cons.mp hs with ⟨ha, hrest⟩
    by_cases hp : p a
    · rw [List.find?_cons_of_pos _ hp] at h
      injection h with hx
      subst hx
      refine ⟨hp, fun y hy hpy => ?_⟩
      rcases List.mem_cons.mp hy with rfl | hy
      · exact le_refl _
      · exact le_of_lt (ha y hy)
    · rw [List.find?_cons_of_neg _ hp] at h
      obtain ⟨hpx, hmin⟩ := ih hrest h
      refine ⟨hpx, fun y hy hpy => ?_⟩
      rcases List.mem_cons.mp hy with rfl | hy
      · exact absurd hpy hp
      · exact hmin y hy hpy

/-- A batch is handed to `send_eth_transaction_batch` only if it is the one
the selection loop chose. -/
lemma relay_batches_submitted (env : RelayEnv) (x : TransactionBatch)
    (hx : (relay_batches env).submitted = some x) :
    ∃ bs, env.latest_batches = some bs ∧ find_signed_batch env bs = some x := by
  unfold relay_batches at hx
  split at hx
  · simp at hx
  next bs hbs =>
    split at hx
    · simp at hx
    next b hb =>
      split at hx
      · simp at hx
      next n hn =>
        refine ⟨bs, hbs, ?_⟩
        rw [hb]
        split at hx
        · split at hx
          · simp at hx
          · split at hx <;> simp_all
        · simp at hx

/-- C2 counterexample: with candidate batches for the same token listed as
`[nonce 5, nonce 7]`, both with passing signatures and both newer than the
contract's batch nonce 0, `relay_batches` submits the nonce-7 batch even
though the nonce-5 batch is also submittable, so the lowest-nonce submittable
batch is not the one selected. -/
theorem claim_C2_oldest_batch_counterexample :
    (relay_batches
        ⟨some [⟨5, 0⟩, ⟨7, 0⟩], fun _ => true, fun _ => true,
          fun _ => some 0, true, true⟩).submitted = some ⟨7, 0⟩ ∧
      batch_passes
        ⟨some [⟨5, 0⟩, ⟨7, 0⟩], fun _ => true, fun _ => true,
          fun _ => some 0, true, true⟩ ⟨5, 0⟩ = true ∧
      (5 : Nat) < 7 := by
  refine ⟨rfl, rfl, by decide⟩

/-- C2 amended: the selection loop keeps the last candidate in list order
whose signatures pass, so when the candidate list is sorted in strictly
descending nonce order the selected batch passes, has minimal nonce among all
passing candidates, and is the only batch `relay_batches` can submit. -/
theorem claim_C2_oldest_batch_selected (env : RelayEnv)
    (bs : List TransactionBatch) (b : TransactionBatch)
    (hlb : env.latest_batches = some bs)
    (hdesc : bs.Pairwise (fun a c => c.nonce < a.nonce))
    (hfind : find_signed_batch env bs = some b) :
    batch_passes env b = true ∧
      (∀ y ∈ bs, batch_passes env y = true → b.nonce ≤ y.nonce) ∧
      (∀ x, (relay_batches env).submitted = some x → x = b) := by
  have h1 : bs.reverse.find? (batch_passes env) = some b := by
    rw [← find_signed_batch_eq_find?_reverse]
    exact hfind
  have hrev : bs.reverse.Pairwise (fun a c => a.nonce < c.nonce) :=
    List.pairwise_reverse.mpr hdesc
  obtain ⟨hp, hmin⟩ := find?_min_nonce_of_sorted (batch_passes env) bs.reverse hrev b h1
  refine ⟨hp, fun y hy hpy => hmin y (List.mem_reverse.mpr hy) hpy, ?_⟩
  intro x hx
  obtain ⟨bs', hbs', hfind'⟩ := relay_batches_submitted env x hx
  rw [hlb] at hbs'
  injection hbs' with hbs'
  subst hbs'
  rw [hfind] at hfind'
  injection hfind' with hfind'
  exact hfind'.symm

/-- Witness for C2 amended: candidates `[nonce 7, nonce 5]` (descending) for
token 0, both passing, select the nonce-5 batch. -/
theorem claim_C2_oldest_batch_selected_witness :
    batch_passes
        ⟨some [⟨7, 0⟩, ⟨5, 0⟩], fun _ => true, fun _ => true,
          fun _ => some 0, true, true⟩ ⟨5, 0⟩ = true ∧
      (5 : Nat) ≤ 7 := by
  have h := claim_C2_oldest_batch_selected
    ⟨some [⟨7, 0⟩, ⟨5, 0⟩], fun _ => true, fun _ => true,
      fun _ => some 0, true, true⟩
    [⟨7, 0⟩, ⟨5, 0⟩] ⟨5, 0⟩ rfl (by decide) rfl
  exact ⟨h.1, h.2.1 ⟨7, 0⟩ (by decide) rfl⟩

/-- C10: `relay_batches` always returns unit; each failure — the
latest-batches query, no batch with passing signatures, the on-chain
batch-nonce read, the gas-cost estimate, the batch submission — produces an
early normal `RelayOutcome` (a type with no error case), never a propagated
error. -/
theorem claim_C10_relay_batches_total (env : RelayEnv) :
    (env.latest_batches = none →
        relay_batches env = ⟨none, some .latestBatchesErr⟩) ∧
      (∀ bs, env.latest_batches = some bs → find_signed_batch env bs = none →
        relay_batches env = ⟨none, some .noSignedBatch⟩) ∧
      (∀ bs b, env.latest_batches = some bs → find_signed_batch env bs = some b →
        env.eth_batch_nonce b.token_contract = none →
        relay_batches env = ⟨none, some .ethNonceErr⟩) ∧
      (∀ bs b n, env.latest_batches = some bs →
        find_signed_batch env bs = some b →
        env.eth_batch_nonce b.token_contract = some n → b.nonce > n →
        env.cost_ok = false → relay_batches env = ⟨none, some .costErr⟩) ∧
      (∀ bs b n, env.latest_batches = some bs →
        find_signed_batch env bs = some b →
        env.eth_batch_nonce b.token_contract = some n → b.nonce > n →
        env.cost_ok = true → env.submit_ok = false →
        relay_batches env = ⟨some b, some .submitErr⟩) := by
  refine ⟨?_, ?_, ?_, ?_, ?_⟩
  · intro h
    simp [relay_batches, h]
  · intro bs h hf
    simp [relay_batches, h, hf]
  · intro bs b h hf hn
    simp [relay_batches, h, hf, hn]
  · intro bs b n h hf hn hgt hc
    simp [relay_batches, h, hf, hn, hgt, hc]
  · intro bs b n h hf hn hgt hc hs
    simp [relay_batches, h, hf, hn, hgt, hc, hs]

/-- Witness for C10: a failed latest-batches query returns early with no
submission. -/
theorem claim_C10_relay_batches_total_witness :
    relay_batches ⟨none, fun _ => true, fun _ => true, fun _ => some 0, true, true⟩ =
      ⟨none, some .latestBatchesErr⟩ :=
  (claim_C10_relay_batches_total
    ⟨none, fun _ => true, fun _ => true, fun _ => some 0, true, true⟩).1 rfl

end GravityBridge
